import Mathlib

/-!
Verification development for the tool-calling conversation loop of
`auto_ai.py` (class `ConversationManager`).  The Python source is embedded
shallowly: pure fragments of the code become Lean functions, the mutable
fields of `ConversationManager` become an explicit state record threaded
through the functions, and exceptions become an explicit outcome value.
The stdlib collaborators `json.loads` / `json.dumps` are modelled by an
executable JSON parser and serializer over an inductive JSON value type.
-/

set_option autoImplicit false

namespace AutoAi

/-- JSON values.  Number literals keep their raw token text, since the
program never inspects parsed numbers (they are only passed through to a
capability provider). -/
inductive Json where
  | null : Json
  | bool (b : Bool) : Json
  | num (lit : String) : Json
  | str (s : String) : Json
  | arr (xs : List Json) : Json
  | obj (fields : List (String × Json)) : Json

/-- Brace characters, kept symbolic. -/
def lbrace : Char := Char.ofNat 123

def rbrace : Char := Char.ofNat 125

/-- Escape one character the way `json.dumps` does for the characters that
can occur in this program (ASCII text; quote, backslash and the common
control characters). -/
def jsonEscapeChar (c : Char) : String :=
  if c = '"' then "\\\""
  else if c = '\\' then "\\\\"
  else if c = '\n' then "\\n"
  else if c = '\t' then "\\t"
  else if c = '\r' then "\\r"
  else if c = Char.ofNat 8 then "\\b"
  else if c = Char.ofNat 12 then "\\f"
  else c.toString

def jsonEscape (s : String) : String :=
  String.join (s.data.map jsonEscapeChar)

mutual

/-- Model of `json.dumps` with the default separators. -/
def jsonDumps : Json → String
  | Json.null => "null"
  | Json.bool true => "true"
  | Json.bool false => "false"
  | Json.num lit => lit
  | Json.str s => "\"" ++ jsonEscape s ++ "\""
  | Json.arr xs => "[" ++ String.intercalate ", " (jsonDumpsList xs) ++ "]"
  | Json.obj fs => "\x7b" ++ String.intercalate ", " (jsonDumpsObj fs) ++ "\x7d"

def jsonDumpsList : List Json → List String
  | [] => []
  | x :: xs => jsonDumps x :: jsonDumpsList xs

def jsonDumpsObj : List (String × Json) → List String
  | [] => []
  | (k, v) :: fs => ("\"" ++ jsonEscape k ++ "\": " ++ jsonDumps v) :: jsonDumpsObj fs

end

/-- JSON whitespace accepted by the Python `json` module. -/
def isJsonWs (c : Char) : Bool :=
  c = ' ' || c = '\t' || c = '\n' || c = '\r'

def skipWs : List Char → List Char
  | [] => []
  | c :: cs => if isJsonWs c then skipWs cs else c :: cs

def hexVal (c : Char) : Option Nat :=
  if '0' ≤ c ∧ c ≤ '9' then some (c.toNat - '0'.toNat)
  else if 'a' ≤ c ∧ c ≤ 'f' then some (c.toNat - 'a'.toNat + 10)
  else if 'A' ≤ c ∧ c ≤ 'F' then some (c.toNat - 'A'.toNat + 10)
  else none

/-- Parse the remainder of a JSON string literal (after the opening quote),
accumulating characters in reverse.  Python `json.loads` in strict mode
rejects raw control characters inside string literals. -/
def parseStringRest (fuel : Nat) (cs : List Char) (acc : List Char) :
    Option (String × List Char) :=
  match fuel with
  | 0 => none
  | fuel + 1 =>
    match cs with
    | [] => none
    | c :: rest =>
      if c = '"' then some (String.mk acc.reverse, rest)
      else if c = '\\' then
        match rest with
        | [] => none
        | e :: rest2 =>
          if e = '"' then parseStringRest fuel rest2 ('"' :: acc)
          else if e = '\\' then parseStringRest fuel rest2 ('\\' :: acc)
          else if e = '/' then parseStringRest fuel rest2 ('/' :: acc)
          else if e = 'b' then parseStringRest fuel rest2 (Char.ofNat 8 :: acc)
          else if e = 'f' then parseStringRest fuel rest2 (Char.ofNat 12 :: acc)
          else if e = 'n' then parseStringRest fuel rest2 ('\n' :: acc)
          else if e = 'r' then parseStringRest fuel rest2 ('\r' :: acc)
          else if e = 't' then parseStringRest fuel rest2 ('\t' :: acc)
          else if e = 'u' then
            match rest2 with
            | h1 :: h2 :: h3 :: h4 :: rest3 =>
              match hexVal h1, hexVal h2, hexVal h3, hexVal h4 with
              | some a, some b, some c3, some d =>
                parseStringRest fuel rest3
                  (Char.ofNat (((a * 16 + b) * 16 + c3) * 16 + d) :: acc)
              | _, _, _, _ => none
            | _ => none
          else none
      else if c.toNat < 32 then none
      else parseStringRest fuel rest (c :: acc)

/-- Take a maximal run of decimal digits. -/
def takeDigits : List Char → List Char × List Char
  | [] => ([], [])
  | c :: cs =>
    if c.isDigit then
      let (d, r) := takeDigits cs
      (c :: d, r)
    else ([], c :: cs)

/-- Parse a JSON number token, returning its raw literal text. -/
def parseNumber (cs : List Char) : Option (String × List Char) :=
  let (sign, cs1) := match cs with
    | '-' :: r => (['-'], r)
    | _ => (([] : List Char), cs)
  match cs1 with
  | [] => none
  | c :: r =>
    if ¬ c.isDigit then none
    else
      let (intPart, r1) :=
        if c = '0' then ([c], r)
        else
          let (d, r1) := takeDigits r
          (c :: d, r1)
      let fracRes : Option (List Char × List Char) :=
        match r1 with
        | '.' :: r2 =>
          let (d, r3) := takeDigits r2
          if d = [] then none else some ('.' :: d, r3)
        | _ => some ([], r1)
      match fracRes with
      | none => none
      | some (fracPart, r2) =>
        let expRes : Option (List Char × List Char) :=
          match r2 with
          | e :: r3 =>
            if e = 'e' ∨ e = 'E' then
              let (es, r4) := match r3 with
                | '+' :: r4 => ([e, '+'], r4)
                | '-' :: r4 => ([e, '-'], r4)
                | _ => ([e], r3)
              let (d, r5) := takeDigits r4
              if d = [] then none else some (es ++ d, r5)
            else some ([], r2)
          | [] => some ([], r2)
        match expRes with
        | none => none
        | some (expPart, rest) =>
          some (String.mk (sign ++ intPart ++ fracPart ++ expPart), rest)

/-- Insert a key/value pair into an object the way a Python dict does:
an existing key keeps its position and gets the new value, a new key is
appended. -/
def dictInsert (l : List (String × Json)) (k : String) (v : Json) :
    List (String × Json) :=
  if l.any (fun p => p.1 = k) then
    l.map (fun p => if p.1 = k then (k, v) else p)
  else l ++ [(k, v)]

mutual

/-- Recursive-descent JSON value parser (model of the Python `json`
scanner).  Expects its input to start at a value (leading whitespace
already skipped). -/
def parseValue (fuel : Nat) (cs : List Char) : Option (Json × List Char) :=
  match fuel with
  | 0 => none
  | fuel + 1 =>
    match cs with
    | [] => none
    | c :: rest =>
      if c = '"' then
        match parseStringRest (fuel + 1) rest [] with
        | some (s, r) => some (Json.str s, r)
        | none => none
      else if c = lbrace then
        match skipWs rest with
        | [] => none
        | c2 :: rest2 =>
          if c2 = rbrace then some (Json.obj [], rest2)
          else parseMembers fuel (c2 :: rest2) []
      else if c = '[' then
        match skipWs rest with
        | [] => none
        | c2 :: rest2 =>
          if c2 = ']' then some (Json.arr [], rest2)
          else parseItems fuel (c2 :: rest2) []
      else if c = 't' then
        match rest with
        | 'r' :: 'u' :: 'e' :: r => some (Json.bool true, r)
        | _ => none
      else if c = 'f' then
        match rest with
        | 'a' :: 'l' :: 's' :: 'e' :: r => some (Json.bool false, r)
        | _ => none
      else if c = 'n' then
        match rest with
        | 'u' :: 'l' :: 'l' :: r => some (Json.null, r)
        | _ => none
      else if c = '-' ∨ c.isDigit then
        match parseNumber cs with
        | some (lit, r) => some (Json.num lit, r)
        | none => none
      else none

/-- Parse the members of a JSON object, positioned at a key. -/
def parseMembers (fuel : Nat) (cs : List Char) (acc : List (String × Json)) :
    Option (Json × List Char) :=
  match fuel with
  | 0 => none
  | fuel + 1 =>
    match cs with
    | [] => none
    | c :: rest =>
      if c = '"' then
        match parseStringRest (fuel + 1) rest [] with
        | none => none
        | some (k, r1) =>
          match skipWs r1 with
          | ':' :: r2 =>
            match parseValue fuel (skipWs r2) with
            | none => none
            | some (v, r3) =>
              let acc2 := dictInsert acc k v
              match skipWs r3 with
              | ',' :: r4 =>
                match skipWs r4 with
                | [] => none
                | cs5 => parseMembers fuel cs5 acc2
              | c4 :: r4 =>
                if c4 = rbrace then some (Json.obj acc2, r4) else none
              | [] => none
          | _ => none
      else none

/-- Parse the items of a JSON array, positioned at a value. -/
def parseItems (fuel : Nat) (cs : List Char) (acc : List Json) :
    Option (Json × List Char) :=
  match fuel with
  | 0 => none
  | fuel + 1 =>
    match parseValue fuel cs with
    | none => none
    | some (v, r1) =>
      let acc2 := acc ++ [v]
      match skipWs r1 with
      | ',' :: r2 =>
        match skipWs r2 with
        | [] => none
        | cs3 => parseItems fuel cs3 acc2
      | ']' :: r2 => some (Json.arr acc2, r2)
      | _ => none

end

/-- Model of `json.loads`: parse one JSON document, rejecting trailing
data (`Extra data` in Python), returning `none` where Python raises
`json.JSONDecodeError`. -/
def jsonLoads (s : String) : Option Json :=
  match parseValue (s.length + 2) (skipWs s.data) with
  | some (v, rest) => if skipWs rest = [] then some v else none
  | none => none

/-! ## Data model -/

/-- A context entry: a Python dict with the keys this program ever writes.
A field value `none` models an absent key (or a key written with value
`None`).  The source never writes a `name` key into any message; the field
is present so that statements about it can be expressed. -/
structure Message where
  role : String
  content : Option String
  tool_call_id : Option String
  arguments : Option String
  name : Option String
deriving DecidableEq, Repr

/-- One streamed tool-call delta (`chunk.choices[0].delta.tool_calls[k]`). -/
structure ToolCallDelta where
  index : Nat
  id : Option String
  name : Option String
  arguments : String
deriving DecidableEq, Repr

/-- One streamed chunk delta (`chunk.choices[0].delta`): an optional text
delta and a possibly empty list of tool-call deltas. -/
structure Fragment where
  content : Option String
  tool_calls : List ToolCallDelta
deriving DecidableEq, Repr

/-- The per-index accumulated tool call (`final_tool_calls[index]`). -/
structure PartialCall where
  id : Option String
  name : Option String
  arguments : String
deriving DecidableEq, Repr

/-- A member of a capability provider class, as the reflection layer sees
it: whether `getattr` succeeds, whether the value is callable, the textual
parameter list `inspect.signature` would report (`none` when
`inspect.signature` raises), the docstring, and the behaviour of invoking
it with keyword arguments (`Except.error` models a raised exception). -/
structure Member where
  gettable : Bool
  callable : Bool
  signature : Option (List String)
  doc : Option String
  call : List (String × Json) → Except String String

/-- A capability provider: its attribute table. -/
abbrev ToolClass := List (String × Member)

/-- One emitted tool descriptor; `params` maps parameter name to the
translated type tag.  The constant envelope fields of the descriptor
(`type: function`, `required: []`, `additionalProperties: false`,
`strict: true`) are omitted from the model. -/
structure Tool where
  name : String
  description : Option String
  params : List (String × String)
deriving DecidableEq, Repr

/-- Mutable state of a `ConversationManager`: the context window, the
registered provider classes, the loop-guard pair, and the log sink (the
`_tools` list is only ever sent to the external transport, and the log
formatting - timestamps, uppercasing, truncation - is presentation). -/
structure ConversationState where
  ctx : List Message
  toolclasses : List ToolClass
  last_tool_call : Option String
  last_tool_call_args : Option String
  logs : List (String × String)

/-- Result of one `send`: a normal return value (`None` on the loop-guard
path) or a propagating exception. -/
inductive SendOutcome where
  | ok (ret : Option String) : SendOutcome
  | exn (err : String) : SendOutcome
deriving DecidableEq, Repr

def logAdd (s : ConversationState) (event msg : String) : ConversationState :=
  { s with logs := s.logs ++ [(event, msg)] }

def roleMsg (role content : String) : Message :=
  { role := role, content := some content, tool_call_id := none,
    arguments := none, name := none }

/-- Model of `ConversationManager.insert_context` (lines 133-137).  The
source computes a stripped copy of the message but appends the original. -/
def insert_context (s : ConversationState) (role msg : String) : ConversationState :=
  { s with ctx := s.ctx ++ [roleMsg role msg] }

/-! ## SchemaBuilder: `add_tool_class` (lines 47-122) -/

def pyIsSpace (c : Char) : Bool :=
  c = ' ' || c = '\t' || c = '\n' || c = '\r' || c = Char.ofNat 11 || c = Char.ofNat 12

/-- Split a character list at every separator position (the pieces between
separators, empty pieces included), like Python `str.split(sep)`. -/
def splitWhenAux (p : Char → Bool) : List Char → List Char → List (List Char)
  | [], acc => [acc.reverse]
  | c :: cs, acc =>
    if p c then acc.reverse :: splitWhenAux p cs []
    else splitWhenAux p cs (c :: acc)

/-- Python `str.split(":")`. -/
def pySplitColon (s : String) : List String :=
  (splitWhenAux (fun c => c = ':') s.data []).map String.mk

/-- Python `str.split()` with no separator: split on whitespace runs,
dropping empty pieces. -/
def pySplitWs (s : String) : List String :=
  ((splitWhenAux pyIsSpace s.data []).map String.mk).filter (fun p => p ≠ "")

/-- Python `str.strip()`. -/
def pyStrip (s : String) : String :=
  String.mk (((s.data.dropWhile pyIsSpace).reverse.dropWhile pyIsSpace).reverse)

/-- Python `str.startswith("_")`. -/
def pyStartsWithUnderscore (s : String) : Bool :=
  match s.data with
  | c :: _ => c = '_'
  | [] => false

/-- Code-point lexicographic string order, as Python `sorted` uses. -/
def charListLe : List Char → List Char → Bool
  | [], _ => true
  | _ :: _, [] => false
  | a :: as, b :: bs => if a = b then charListLe as bs else decide (a.toNat < b.toNat)

def strLe (a b : String) : Bool :=
  charListLe a.data b.data

/-- The `param_type_map` replacement loop (lines 85-95): each entry is
compared in turn against the current value and replaces it on exact
match. -/
def mapParamType (t : String) : String :=
  let t := if t = "str" then "string" else t
  let t := if t = "int" then "integer" else t
  let t := if t = "list" then "array" else t
  if t = "bool" then "boolean" else t

/-- Translation of one declared parameter from its `str(param)` text
(lines 77-97): split on `:`, the left part is the name, the first
whitespace-separated word of the second part is the type (defaulting to
`str` when there is no annotation), then apply `mapParamType`.  Where the
source would raise `IndexError` (annotation text that is empty after the
colon) the model yields the empty string. -/
def translateParam (p : String) : String × String :=
  let parts := pySplitColon p
  let pname := pyStrip (parts.headD "")
  let ptype :=
    if parts.length > 1 then pyStrip ((pySplitWs (parts.getD 1 "")).headD "")
    else "str"
  (pname, mapParamType ptype)

def insertSortedMember (x : String × Member) :
    List (String × Member) → List (String × Member)
  | [] => [x]
  | y :: ys => if strLe x.1 y.1 then x :: y :: ys else y :: insertSortedMember x ys

/-- `dir(toolclass)` enumerates attribute names in sorted order. -/
def dirSorted (tc : ToolClass) : ToolClass :=
  tc.foldr insertSortedMember []

def buildTool (n : String) (m : Member) (ps : List String) : Tool :=
  { name := n, description := m.doc, params := ps.map translateParam }

/-- The member loop of `add_tool_class` (lines 60-122): private names are
skipped, `getattr` failures are skipped, non-callables are skipped; a
member whose signature cannot be introspected makes `inspect.signature`
raise, which nothing catches (`Except.error`).  Returns the emitted
descriptor list. -/
def add_tool_class_aux : List (String × Member) → Except String (List Tool)
  | [] => Except.ok []
  | (n, m) :: rest =>
    if pyStartsWithUnderscore n then add_tool_class_aux rest
    else if !m.gettable then add_tool_class_aux rest
    else if !m.callable then add_tool_class_aux rest
    else
      match m.signature with
      | none => Except.error ("ValueError: no signature found for " ++ n)
      | some ps =>
        match add_tool_class_aux rest with
        | Except.error e => Except.error e
        | Except.ok ts => Except.ok (buildTool n m ps :: ts)

/-- Model of `ConversationManager.add_tool_class`: the descriptor set the
registration emits, or the exception it raises. -/
def add_tool_class (tc : ToolClass) : Except String (List Tool) :=
  add_tool_class_aux (dirSorted tc)

/-! ## StreamAggregator: the chunk loop of `send` (lines 156-176) -/

def hasIndex (acc : List (Nat × PartialCall)) (i : Nat) : Bool :=
  acc.any (fun p => p.1 = i)

def updateArgs : List (Nat × PartialCall) → Nat → String → List (Nat × PartialCall)
  | [], _, _ => []
  | (j, pc) :: rest, i, a =>
    if j = i then (j, { pc with arguments := pc.arguments ++ a }) :: rest
    else (j, pc) :: updateArgs rest i a

/-- One tool-call delta folded into `final_tool_calls` (lines 170-176).
The source stores the first delta object for an index and then
unconditionally appends the current delta's argument fragment to the
stored object; on the first delta the stored object is the current delta
itself, so its argument fragment is appended to itself. -/
def addDelta (acc : List (Nat × PartialCall)) (d : ToolCallDelta) :
    List (Nat × PartialCall) :=
  if hasIndex acc d.index then updateArgs acc d.index d.arguments
  else acc ++ [(d.index, { id := d.id, name := d.name,
                           arguments := d.arguments ++ d.arguments })]

/-- One streamed chunk folded into the text chunks and `final_tool_calls`
(lines 158-176); an empty text delta is falsy and is not collected. -/
def procFragment (st : String × List (Nat × PartialCall)) (f : Fragment) :
    String × List (Nat × PartialCall) :=
  let text := match f.content with
    | some c => if c = "" then st.1 else st.1 ++ c
    | none => st.1
  (text, f.tool_calls.foldl addDelta st.2)

/-- The whole streaming loop: final text (the joined chunks) and the
accumulated tool calls keyed by index, in dict insertion order. -/
def streamAggregate (fs : List Fragment) : String × List (Nat × PartialCall) :=
  fs.foldl procFragment ("", [])

def firstAppearanceAux (seen : List Nat) : List Nat → List Nat
  | [] => []
  | i :: rest =>
    if i ∈ seen then firstAppearanceAux seen rest
    else i :: firstAppearanceAux (i :: seen) rest

/-- Specification-side ordering description: the tool-call indices of a
stream in order of first appearance, each exactly once (the key order of a
Python dict filled by the chunk loop). -/
def firstAppearanceOrder (l : List Nat) : List Nat :=
  firstAppearanceAux [] l

/-! ## Dispatcher and LoopGuard: the call loop of `send` (lines 179-209) -/

/-- `hasattr(class_obj, n)`: true when the attribute exists and `getattr`
succeeds; note this is any attribute, public or private, callable or
not. -/
def hasAttr (tc : ToolClass) (n : String) : Bool :=
  match tc.lookup n with
  | some m => m.gettable
  | none => false

/-- The provider scan of lines 181-188: the first registered class with a
matching attribute wins. -/
def findToolclass (tcs : List ToolClass) (n : String) : Option ToolClass :=
  tcs.find? (fun tc => hasAttr tc n)

/-- The corrective loop-guard message text (line 193). -/
def loopText (n : String) : String :=
  "ALERT!! You are entering an endless loop. Stop what you are doing and choose a different action. Details: You already called this tool before! look at your list of tools and call a tool that isn\x27t " ++ n ++ "."

def loopMsgJson (n : String) : String :=
  jsonDumps (Json.obj [("error", Json.str (loopText n))])

def lookupFailText (n : String) : String :=
  "tried to call tool " ++ n ++ " but couldnt find it?!"

/-- The `for index, tool_call in final_tool_calls.items()` loop (lines
179-209).  `nested` is the recursive `self.send` used by the loop guard.
Result outcome `none` means the loop ran to completion; `some o` means the
loop exited the whole `send` early with outcome `o` (the loop-guard bare
`return`, or a propagating exception). -/
def processCalls (nested : ConversationState → String → String → ConversationState × SendOutcome) :
    List (Nat × PartialCall) → ConversationState → ConversationState × Option SendOutcome
  | [], s => (s, none)
  | (_, pc) :: rest, s =>
    match pc.name with
    | none => (s, some (SendOutcome.exn "TypeError: attribute name must be string"))
    | some nm =>
      match findToolclass s.toolclasses nm with
      | none => processCalls nested rest (logAdd s "toolcall" (lookupFailText nm))
      | some tc =>
        if some nm = s.last_tool_call ∧ some pc.arguments = s.last_tool_call_args then
          let s1 := logAdd s "toolcall" "AI tried calling the same tool again"
          match nested s1 "system" (loopMsgJson nm) with
          | (s2, SendOutcome.exn e) => (s2, some (SendOutcome.exn e))
          | (s2, SendOutcome.ok _) => (s2, some (SendOutcome.ok none))
        else
          match tc.lookup nm with
          | none => (s, some (SendOutcome.exn "AttributeError"))
          | some m =>
            match jsonLoads pc.arguments with
            | none => (s, some (SendOutcome.exn "json.JSONDecodeError"))
            | some j =>
              let s1 := logAdd s "toolcall" ("calling tool " ++ nm)
              match j with
              | Json.obj kwargs =>
                if !m.callable then
                  (s1, some (SendOutcome.exn "TypeError: object is not callable"))
                else
                  match m.call kwargs with
                  | Except.error e => (s1, some (SendOutcome.exn e))
                  | Except.ok resp =>
                    let invMsg : Message :=
                      { role := "tool_call", content := none, tool_call_id := pc.id,
                        arguments := some pc.arguments, name := none }
                    let resMsg : Message :=
                      { role := "tool_response",
                        content := some (jsonDumps (Json.str resp)),
                        tool_call_id := pc.id, arguments := none, name := none }
                    let s2 := { s1 with
                      ctx := s1.ctx ++ [invMsg, resMsg],
                      last_tool_call := some nm,
                      last_tool_call_args := some pc.arguments }
                    processCalls nested rest s2
              | _ => (s1, some (SendOutcome.exn "TypeError: arguments must be a mapping"))

/-! ## ConversationManager.send (lines 139-217) -/

/-- Lines 142-145: the request log (suppressed when `silent`) followed by
appending the outgoing message to the context. -/
def requestState (s : ConversationState) (role msg : String) (silent : Bool) :
    ConversationState :=
  insert_context (if silent then s else logAdd s "request to AI" (role ++ ": " ++ msg))
    role msg

/-- Model of `ConversationManager.send`.  The external streaming transport
is supplied as an oracle: the list of fragment streams the transport
yields, one stream per request issued (the head for this request, the tail
for requests issued by nested `send` calls); an exhausted oracle stands
for a stream that closes without yielding any fragment. -/
def sendAux : List (List Fragment) → ConversationState → String → String → Bool →
    ConversationState × SendOutcome
  | [], s, role, msg, silent =>
    (requestState s role msg silent, SendOutcome.ok (some ""))
  | stream :: rest, s, role, msg, silent =>
    let s2 := requestState s role msg silent
    let res := streamAggregate stream
    match processCalls (fun st r m => sendAux rest st r m false) res.2 s2 with
    | (s3, some o) => (s3, o)
    | (s3, none) =>
      if res.1 = "" then (s3, SendOutcome.ok (some res.1))
      else
        let s4 := logAdd { s3 with ctx := s3.ctx ++ [roleMsg "assistant" res.1] } "AI" res.1
        (s4, SendOutcome.ok (some res.1))

def send (oracle : List (List Fragment)) (s : ConversationState)
    (role msg : String) (silent : Bool) : ConversationState × SendOutcome :=
  sendAux oracle s role msg silent

/-- The nested `send` performed by the loop guard, with a transport whose
response stream closes without yielding any fragment. -/
def nestedNone : ConversationState → String → String → ConversationState × SendOutcome :=
  fun st r m => sendAux [] st r m false

/-! ## Concrete fixtures -/

/-- A provider operation `ping()` returning `"pong"`. -/
def pingMember : Member :=
  { gettable := true, callable := true, signature := some [], doc := none,
    call := fun _ => Except.ok "pong" }

def pingClass : ToolClass := [("ping", pingMember)]

def aMember : Member :=
  { gettable := true, callable := true, signature := some [], doc := none,
    call := fun _ => Except.ok "ra" }

def bMember : Member :=
  { gettable := true, callable := true, signature := some [], doc := none,
    call := fun _ => Except.ok "rb" }

/-- A provider of the trivial operations `a` and `b`. -/
def abClass : ToolClass := [("a", aMember), ("b", bMember)]

/-- A provider whose only attribute is private (skipped at registration). -/
def secretClass : ToolClass :=
  [("_secret", { gettable := true, callable := true, signature := some [], doc := none,
                 call := fun _ => Except.ok "shh" })]

/-- A stream carrying one complete call of `ping` with arguments split so
that the first delta carries the empty argument fragment (as the OpenAI
transport does). -/
def pingStream : List Fragment :=
  [⟨none, [⟨0, some "call_1", some "ping", ""⟩]⟩,
   ⟨none, [⟨0, none, none, "\x7b\x7d"⟩]⟩]

def s0ping : ConversationState := ⟨[], [pingClass], none, none, []⟩

/-- State in which the most recently dispatched call was `ping` with raw
arguments `{}`. -/
def sGuard : ConversationState := ⟨[], [pingClass], some "ping", some "\x7b\x7d", []⟩

/-- A stream carrying text `hello` and a complete `ping {}` call. -/
def guardStream : List Fragment :=
  [⟨some "hello", [⟨0, some "call_2", some "ping", ""⟩]⟩,
   ⟨none, [⟨0, none, none, "\x7b\x7d"⟩]⟩]

def sAb : ConversationState := ⟨[], [abClass], none, none, []⟩

/-- A stream with two indexed calls: index 0 (`a`) accumulates a buffer
that is not valid JSON, index 1 (`b`) accumulates `{}`. -/
def badStream : List Fragment :=
  [⟨none, [⟨0, some "c0", some "a", ""⟩, ⟨1, some "c1", some "b", ""⟩]⟩,
   ⟨none, [⟨0, none, none, "not json"⟩, ⟨1, none, none, "\x7b\x7d"⟩]⟩]

/-- A stream in which index 1 (`b`) appears before index 0 (`a`). -/
def baStream : List Fragment :=
  [⟨none, [⟨1, some "c1", some "b", ""⟩]⟩,
   ⟨none, [⟨1, none, none, "\x7b\x7d"⟩, ⟨0, some "c0", some "a", ""⟩]⟩,
   ⟨none, [⟨0, none, none, "\x7b\x7d"⟩]⟩]

def sSecret : ConversationState := ⟨[], [secretClass], none, none, []⟩

/-- State in which the most recently dispatched call was `_secret` with
raw arguments `{}`. -/
def sSecretGuard : ConversationState :=
  ⟨[], [secretClass], some "_secret", some "\x7b\x7d", []⟩

/-- A stream carrying one complete call of `_secret` with arguments `{}`. -/
def secretStream : List Fragment :=
  [⟨none, [⟨0, some "c0", some "_secret", ""⟩]⟩,
   ⟨none, [⟨0, none, none, "\x7b\x7d"⟩]⟩]

/-- State whose stored loop-guard pair names an attribute no registered
class has. -/
def sNope : ConversationState := ⟨[], [pingClass], some "nope", some "\x7b\x7d", []⟩

/-- A stream carrying only the text `hi` and no tool calls. -/
def textStream : List Fragment := [⟨some "hi", []⟩]

/-- An operation `search(query: str, limit: int)` with a docstring. -/
def searchMember : Member :=
  { gettable := true, callable := true, signature := some ["query: str", "limit: int"],
    doc := some "find stuff", call := fun _ => Except.ok "" }

/-- An operation whose parameter signature cannot be introspected. -/
def badMember : Member :=
  { gettable := true, callable := true, signature := none, doc := none,
    call := fun _ => Except.ok "" }

def goodMember : Member :=
  { gettable := true, callable := true, signature := some [], doc := none,
    call := fun _ => Except.ok "" }

def mixedClass : ToolClass := [("bad", badMember), ("good", goodMember)]

/-! ## Helper lemmas -/

lemma mem_insertSortedMember (x y : String × Member) (l : List (String × Member)) :
    x ∈ insertSortedMember y l ↔ x = y ∨ x ∈ l := by
  induction l with
  | nil => simp [insertSortedMember]
  | cons z zs ih =>
    simp only [insertSortedMember]
    split
    · simp [List.mem_cons]
    · simp only [List.mem_cons, ih]
      tauto

lemma mem_dirSorted (x : String × Member) (tc : ToolClass) :
    x ∈ dirSorted tc ↔ x ∈ tc := by
  induction tc with
  | nil => simp [dirSorted]
  | cons y ys ih =>
    show x ∈ insertSortedMember y (dirSorted ys) ↔ x ∈ y :: ys
    rw [mem_insertSortedMember, ih, List.mem_cons]

lemma add_tool_class_aux_error_of_bad (l : List (String × Member)) (n : String) (m : Member)
    (hmem : (n, m) ∈ l) (hpriv : pyStartsWithUnderscore n = false)
    (hget : m.gettable = true) (hcall : m.callable = true) (hsig : m.signature = none) :
    ∃ e, add_tool_class_aux l = Except.error e := by
  induction l with
  | nil => cases hmem
  | cons hd tl ih =>
    rcases List.mem_cons.mp hmem with heq | hmem2
    · subst heq
      simp [add_tool_class_aux, hpriv, hget, hcall, hsig]
    · obtain ⟨e, he⟩ := ih hmem2
      rcases hd with ⟨n2, m2⟩
      simp only [add_tool_class_aux]
      split_ifs with h1 h2 h3
      · exact ⟨e, he⟩
      · exact ⟨e, he⟩
      · exact ⟨e, he⟩
      · cases hsig2 : m2.signature with
        | none => exact ⟨_, rfl⟩
        | some ps =>
          rw [he]
          exact ⟨e, rfl⟩

lemma keys_updateArgs (acc : List (Nat × PartialCall)) (i : Nat) (a : String) :
    (updateArgs acc i a).map Prod.fst = acc.map Prod.fst := by
  induction acc with
  | nil => rfl
  | cons p rest ih =>
    rcases p with ⟨j, pc⟩
    simp only [updateArgs]
    split
    · simp
    · simp [ih]

lemma hasIndex_iff (acc : List (Nat × PartialCall)) (i : Nat) :
    hasIndex acc i = true ↔ i ∈ acc.map Prod.fst := by
  simp [hasIndex, List.any_eq_true, List.mem_map]

lemma keys_addDelta (acc : List (Nat × PartialCall)) (d : ToolCallDelta) :
    (addDelta acc d).map Prod.fst =
      if d.index ∈ acc.map Prod.fst then acc.map Prod.fst
      else acc.map Prod.fst ++ [d.index] := by
  simp only [addDelta]
  by_cases h : d.index ∈ acc.map Prod.fst
  · rw [if_pos ((hasIndex_iff acc d.index).mpr h), keys_updateArgs, if_pos h]
  · rw [if_neg (fun hc => h ((hasIndex_iff acc d.index).mp hc)), if_neg h]
    simp

lemma firstAppearanceAux_congr (l : List Nat) (s1 s2 : List Nat)
    (h : ∀ x, x ∈ s1 ↔ x ∈ s2) :
    firstAppearanceAux s1 l = firstAppearanceAux s2 l := by
  induction l generalizing s1 s2 with
  | nil => rfl
  | cons i rest ih =>
    simp only [firstAppearanceAux]
    by_cases hi : i ∈ s1
    · rw [if_pos hi, if_pos ((h i).mp hi)]
      exact ih s1 s2 h
    · rw [if_neg hi, if_neg (fun hc => hi ((h i).mpr hc))]
      congr 1
      exact ih _ _ (fun x => by simp only [List.mem_cons, h x])

lemma keys_foldl_addDelta (ds : List ToolCallDelta) (acc : List (Nat × PartialCall)) :
    ((ds.foldl addDelta acc).map Prod.fst) =
      acc.map Prod.fst ++
        firstAppearanceAux (acc.map Prod.fst) (ds.map ToolCallDelta.index) := by
  induction ds generalizing acc with
  | nil => simp [firstAppearanceAux]
  | cons d rest ih =>
    simp only [List.foldl_cons, List.map_cons, firstAppearanceAux]
    rw [ih (addDelta acc d), keys_addDelta]
    by_cases h : d.index ∈ acc.map Prod.fst
    · rw [if_pos h, if_pos h]
    · rw [if_neg h, if_neg h]
      rw [firstAppearanceAux_congr (rest.map ToolCallDelta.index)
            (acc.map Prod.fst ++ [d.index]) (d.index :: acc.map Prod.fst)
            (fun x => by simp only [List.mem_append, List.mem_cons,
              List.mem_singleton, List.not_mem_nil, or_false, false_or]; tauto)]
      simp

lemma calls_foldl_procFragment (fs : List Fragment) (st : String × List (Nat × PartialCall)) :
    (fs.foldl procFragment st).2 =
      ((fs.map Fragment.tool_calls).flatten).foldl addDelta st.2 := by
  induction fs generalizing st with
  | nil => rfl
  | cons f rest ih =>
    simp only [List.foldl_cons, List.map_cons, List.flatten_cons]
    rw [List.foldl_append, ih]
    rfl

/-! ## Claim theorems -/

/-- C1: evaluation of the stream-merge loop at the spec's own two-fragment
example for one index, fragments `("f", "{\"a\":")` then `(None, "1}")`.
The resolved call does take its id and name from the first delta, but the
argument buffer is not the concatenation of the fragments taken once each:
the missing `else` of lines 173-176 makes the first delta append its own
fragment to itself, so the buffer ends up `{"a":{"a":1}` instead of the
claimed `{"a":1}`. -/
theorem aggregate_doubles_first_fragment :
    streamAggregate
        [⟨none, [⟨0, some "call_0", some "f", "\x7b\"a\":"⟩]⟩,
         ⟨none, [⟨0, none, none, "1\x7d"⟩]⟩] =
      ("", [(0, { id := some "call_0", name := some "f",
                  arguments := "\x7b\"a\":\x7b\"a\":1\x7d" })])
    ∧ "\x7b\"a\":\x7b\"a\":1\x7d" ≠ "\x7b\"a\":" ++ "1\x7d" :=
  ⟨rfl, by decide⟩

/-- C6 counterexample: an operation whose one parameter carries the
unrecognized annotation `float` is emitted with descriptor type tag
`float`, not the claimed default `string` - only the exact names `str`,
`int`, `list`, `bool` are rewritten, everything else passes through. -/
theorem unrecognized_annotation_not_string :
    add_tool_class [("op", { gettable := true, callable := true,
                             signature := some ["x: float"], doc := none,
                             call := fun _ => Except.ok "" })] =
      Except.ok [{ name := "op", description := none, params := [("x", "float")] }]
    ∧ ("float" : String) ≠ "string" :=
  ⟨rfl, by decide⟩

/-- C6 amended: the claim's example holds - `(query: str, limit: int)`
yields `{query: string, limit: integer}` - and the type-tag mapping
rewrites exactly the annotation names `str`, `int`, `list`, `bool`; any
other annotation text is emitted verbatim, and only a missing annotation
(no colon in the parameter text) defaults to `string`. -/
theorem type_tag_translation :
    add_tool_class [("search", searchMember)] =
      Except.ok [{ name := "search", description := some "find stuff",
                   params := [("query", "string"), ("limit", "integer")] }]
    ∧ (∀ t : String, t ≠ "str" → t ≠ "int" → t ≠ "list" → t ≠ "bool" → mapParamType t = t)
    ∧ (∀ p : String, (pySplitColon p).length = 1 → (translateParam p).2 = "string") := by
  refine ⟨rfl, fun t h1 h2 h3 h4 => ?_, fun p hp => ?_⟩
  · simp only [mapParamType, if_neg h1, if_neg h2, if_neg h3, if_neg h4]
  · simp only [translateParam, hp]
    rfl

/-- C6 amended witness: the unrecognized annotation `float` passes through
verbatim; a parameter with no annotation gets `string`. -/
theorem type_tag_translation_witness :
    mapParamType "float" = "float" ∧ (translateParam "x").2 = "string" :=
  ⟨type_tag_translation.2.1 "float" (by decide) (by decide) (by decide) (by decide),
   type_tag_translation.2.2 "x" rfl⟩

/-- C7 counterexample: registering a provider with a public callable
operation whose signature cannot be introspected does not skip that
operation - `inspect.signature` raises with nothing catching it, so the
whole registration fails, the other operation included. -/
theorem bad_signature_fails_registration :
    add_tool_class mixedClass = Except.error "ValueError: no signature found for bad" :=
  rfl

/-- C7 amended: a public, accessible, callable provider operation whose
parameter signature cannot be introspected is not skipped - the whole
registration raises (only private names, attribute-access failures and
non-callables are skipped). -/
theorem uninspectable_signature_fails_registration
    (tc : ToolClass) (n : String) (m : Member)
    (hmem : (n, m) ∈ tc) (hpriv : pyStartsWithUnderscore n = false)
    (hget : m.gettable = true) (hcall : m.callable = true) (hsig : m.signature = none) :
    ∃ e, add_tool_class tc = Except.error e :=
  add_tool_class_aux_error_of_bad (dirSorted tc) n m ((mem_dirSorted _ _).mpr hmem)
    hpriv hget hcall hsig

/-- C7 amended witness: the concrete mixed provider fails registration. -/
theorem uninspectable_signature_fails_registration_witness :
    ∃ e, add_tool_class mixedClass = Except.error e :=
  uninspectable_signature_fails_registration mixedClass "bad" badMember
    (List.mem_cons_self _ _) rfl rfl rfl rfl

/-- C2: for a resolved call that reaches the loop-guard check (its name
found by the provider scan).  If its (name, raw argument string) pair
equals the stored pair of the most recently dispatched call, the call is
not dispatched: the guard logs, injects the corrective system message into
the context through a nested `send` (here with a transport that yields no
fragments), aborts the remaining calls of the turn (the result does not
depend on `rest`) and leaves the stored pair untouched (the result state
changes only `ctx` and `logs`).  If the pair differs and the call
dispatches successfully, the two tool messages are appended and the stored
pair is updated to this call's pair before the loop continues with the
remaining calls. -/
theorem loop_guard_veto_and_update
    (s : ConversationState) (id : Option String) (i : Nat)
    (nm args : String) (rest : List (Nat × PartialCall)) (tc : ToolClass)
    (m : Member) (kwargs : List (String × Json)) (resp : String)
    (hfind : findToolclass s.toolclasses nm = some tc) :
    (s.last_tool_call = some nm → s.last_tool_call_args = some args →
      processCalls nestedNone ((i, ⟨id, some nm, args⟩) :: rest) s =
        (insert_context
          (logAdd (logAdd s "toolcall" "AI tried calling the same tool again")
            "request to AI" ("system" ++ ": " ++ loopMsgJson nm))
          "system" (loopMsgJson nm),
         some (SendOutcome.ok none)))
    ∧
    (¬ (some nm = s.last_tool_call ∧ some args = s.last_tool_call_args) →
      tc.lookup nm = some m → m.callable = true →
      jsonLoads args = some (Json.obj kwargs) →
      m.call kwargs = Except.ok resp →
      processCalls nestedNone ((i, ⟨id, some nm, args⟩) :: rest) s =
        processCalls nestedNone rest
          { logAdd s "toolcall" ("calling tool " ++ nm) with
            ctx := s.ctx ++ [⟨"tool_call", none, id, some args, none⟩,
                             ⟨"tool_response", some (jsonDumps (Json.str resp)), id, none, none⟩],
            last_tool_call := some nm,
            last_tool_call_args := some args }) := by
  refine ⟨fun h1 h2 => ?_, fun hne hm hc hj hr => ?_⟩
  · rw [processCalls]
    simp only [hfind]
    rw [if_pos ⟨h1.symm, h2.symm⟩]
    simp only [nestedNone, sendAux]
    rfl
  · rw [processCalls]
    simp only [hfind]
    rw [if_neg hne]
    simp only [hm, hj, hc]
    simp only [hr]
    rfl

/-- C2 witness: concrete veto (stored pair `(ping, {})`, call `ping {}`)
and concrete dispatch-with-update (same name `ping`, different argument
string). -/
theorem loop_guard_veto_and_update_witness :
    (processCalls nestedNone [(0, ⟨some "w1", some "ping", "\x7b\x7d"⟩)] sGuard =
      (insert_context
        (logAdd (logAdd sGuard "toolcall" "AI tried calling the same tool again")
          "request to AI" ("system" ++ ": " ++ loopMsgJson "ping"))
        "system" (loopMsgJson "ping"),
       some (SendOutcome.ok none)))
    ∧ (processCalls nestedNone [(0, ⟨some "w1", some "ping", "\x7b\"q\": 1\x7d"⟩)] sGuard =
        processCalls nestedNone []
          { logAdd sGuard "toolcall" ("calling tool " ++ "ping") with
            ctx := sGuard.ctx ++
              [⟨"tool_call", none, some "w1", some "\x7b\"q\": 1\x7d", none⟩,
               ⟨"tool_response", some (jsonDumps (Json.str "pong")), some "w1", none, none⟩],
            last_tool_call := some "ping",
            last_tool_call_args := some "\x7b\"q\": 1\x7d" }) :=
  ⟨(loop_guard_veto_and_update sGuard (some "w1") 0 "ping" "\x7b\x7d" [] pingClass
      pingMember [] "pong" rfl).1 rfl rfl,
   (loop_guard_veto_and_update sGuard (some "w1") 0 "ping" "\x7b\"q\": 1\x7d" [] pingClass
      pingMember [("q", Json.num "1")] "pong" rfl).2 (by decide) rfl rfl rfl rfl⟩

/-- C3 counterexample: in a turn with two resolved calls, index 0 (`a`)
with an argument buffer that is not valid JSON and index 1 (`b`) with
arguments `{}`, the parse failure is not local - `json.loads` raises with
nothing catching it, the exception propagates out of `send`, and the call
at index 1 is never processed: no messages for it, no `calling tool b`
log entry. -/
theorem parse_failure_fatal_to_turn :
    (send [badStream] sAb "user" "go" false).2 = SendOutcome.exn "json.JSONDecodeError"
    ∧ (send [badStream] sAb "user" "go" false).1.ctx = [roleMsg "user" "go"]
    ∧ (send [badStream] sAb "user" "go" false).1.logs = [("request to AI", "user: go")] :=
  ⟨rfl, rfl, rfl⟩

/-- C3 amended: a resolved call whose accumulated argument buffer fails to
parse as JSON is fatal to the whole turn - `json.loads` raises out of
`send` before anything of this call is logged or appended, and the
remaining resolved calls of the turn (`rest`) are never processed,
whatever they are. -/
theorem parse_failure_aborts_turn
    (nested : ConversationState → String → String → ConversationState × SendOutcome)
    (s : ConversationState) (id : Option String) (i : Nat) (nm args : String)
    (rest : List (Nat × PartialCall)) (tc : ToolClass) (m : Member)
    (hfind : findToolclass s.toolclasses nm = some tc)
    (hne : ¬ (some nm = s.last_tool_call ∧ some args = s.last_tool_call_args))
    (hm : tc.lookup nm = some m)
    (hj : jsonLoads args = none) :
    processCalls nested ((i, ⟨id, some nm, args⟩) :: rest) s =
      (s, some (SendOutcome.exn "json.JSONDecodeError")) := by
  rw [processCalls]
  simp only [hfind]
  rw [if_neg hne]
  simp only [hm, hj]

/-- C3 amended witness: the concrete two-call turn; the second call is
dropped with the turn. -/
theorem parse_failure_aborts_turn_witness :
    processCalls nestedNone
        [(0, ⟨some "c0", some "a", "not json"⟩),
         (1, ⟨some "c1", some "b", "\x7b\x7d"⟩)] sAb =
      (sAb, some (SendOutcome.exn "json.JSONDecodeError")) :=
  parse_failure_aborts_turn nestedNone sAb (some "c0") 0 "a" "not json"
    [(1, ⟨some "c1", some "b", "\x7b\x7d"⟩)] abClass aMember rfl (by decide) rfl rfl

/-- C4 amended: every successful dispatch appends exactly two messages to
the context: first the invocation record with role `tool_call`, carrying
the tool_call_id and the raw argument string (and no name), then the
result record with role `tool_response`, carrying the same tool_call_id
and the return value's textual form serialized with `json.dumps` (so a
textual result arrives wrapped in JSON quotes). -/
theorem successful_dispatch_appends_two_messages
    (nested : ConversationState → String → String → ConversationState × SendOutcome)
    (s : ConversationState) (id : Option String) (i : Nat)
    (nm args resp : String) (tc : ToolClass) (m : Member)
    (kwargs : List (String × Json))
    (hfind : findToolclass s.toolclasses nm = some tc)
    (hne : ¬ (some nm = s.last_tool_call ∧ some args = s.last_tool_call_args))
    (hm : tc.lookup nm = some m) (hc : m.callable = true)
    (hj : jsonLoads args = some (Json.obj kwargs))
    (hr : m.call kwargs = Except.ok resp) :
    (processCalls nested [(i, ⟨id, some nm, args⟩)] s).1.ctx =
      s.ctx ++ [⟨"tool_call", none, id, some args, none⟩,
                ⟨"tool_response", some (jsonDumps (Json.str resp)), id, none, none⟩]
    ∧ (processCalls nested [(i, ⟨id, some nm, args⟩)] s).2 = none := by
  have key : processCalls nested [(i, ⟨id, some nm, args⟩)] s =
      ({ logAdd s "toolcall" ("calling tool " ++ nm) with
          ctx := s.ctx ++ [⟨"tool_call", none, id, some args, none⟩,
                           ⟨"tool_response", some (jsonDumps (Json.str resp)), id, none, none⟩],
          last_tool_call := some nm,
          last_tool_call_args := some args }, none) := by
    rw [processCalls]
    simp only [hfind]
    rw [if_neg hne]
    simp only [hm, hj, hc, hr]
    rfl
  rw [key]
  exact ⟨rfl, rfl⟩

/-- C4 amended witness: the end-to-end `ping` example, result content
`"pong"` with its JSON quotes. -/
theorem successful_dispatch_appends_two_messages_witness :
    (processCalls nestedNone [(0, ⟨some "call_1", some "ping", "\x7b\x7d"⟩)] s0ping).1.ctx =
      s0ping.ctx ++
        [⟨"tool_call", none, some "call_1", some "\x7b\x7d", none⟩,
         ⟨"tool_response", some (jsonDumps (Json.str "pong")), some "call_1", none, none⟩]
    ∧ (processCalls nestedNone [(0, ⟨some "call_1", some "ping", "\x7b\x7d"⟩)] s0ping).2 = none :=
  successful_dispatch_appends_two_messages nestedNone s0ping (some "call_1") 0
    "ping" "\x7b\x7d" "pong" pingClass pingMember [] rfl (by decide) rfl rfl rfl rfl

/-- C4 counterexample: the end-to-end `ping` example.  Exactly the
invocation record and the result record are appended, but the invocation
record carries no name at all - the dict written at line 203 has only the
keys `role`, `tool_call_id` and `arguments` - so it does not carry the
name `ping` as claimed (and the result content is the JSON-serialized
text, quotes included). -/
theorem invocation_record_lacks_name :
    (send [pingStream] s0ping "user" "go" false).1.ctx =
      [roleMsg "user" "go",
       ⟨"tool_call", none, some "call_1", some "\x7b\x7d", none⟩,
       ⟨"tool_response", some "\"pong\"", some "call_1", none, none⟩]
    ∧ ∀ m ∈ (send [pingStream] s0ping "user" "go" false).1.ctx, m.name ≠ some "ping" :=
  ⟨rfl, by decide⟩

/-- C5 counterexample: a turn whose stream carries the text `hello` and a
call vetoed by the loop guard.  The bare `return` at line 194 makes `send`
return `None` instead of the assembled text, and the non-empty text is
not appended as an assistant message. -/
theorem guard_abort_discards_text :
    (streamAggregate guardStream).1 = "hello"
    ∧ (send [guardStream] sGuard "user" "go" false).2 = SendOutcome.ok none
    ∧ (send [guardStream] sGuard "user" "go" false).2 ≠ SendOutcome.ok (some "hello")
    ∧ ∀ m ∈ (send [guardStream] sGuard "user" "go" false).1.ctx, m.role ≠ "assistant" :=
  ⟨rfl, rfl, by decide, by decide⟩

/-- C5 amended: when the dispatch loop of a turn runs to completion
(result `none`), `send` returns the assembled streamed text (the empty
string when the stream carried no text delta) and appends it to the
context as an assistant message exactly when it is non-empty; when the
loop guard aborts the turn (result `some (ok none)`), `send` returns
`None` and the assembled text is neither returned nor appended. -/
theorem send_text_finalization
    (stream : List Fragment) (s : ConversationState) (role msg : String)
    (s3 s4 : ConversationState) :
    (processCalls (fun st r m => sendAux [] st r m false) (streamAggregate stream).2
        (requestState s role msg false) = (s3, none) →
      (send [stream] s role msg false).2 = SendOutcome.ok (some (streamAggregate stream).1)
      ∧ ((streamAggregate stream).1 ≠ "" →
          (send [stream] s role msg false).1.ctx =
            s3.ctx ++ [roleMsg "assistant" (streamAggregate stream).1])
      ∧ ((streamAggregate stream).1 = "" →
          (send [stream] s role msg false).1.ctx = s3.ctx))
    ∧ (processCalls (fun st r m => sendAux [] st r m false) (streamAggregate stream).2
        (requestState s role msg false) = (s4, some (SendOutcome.ok none)) →
      (send [stream] s role msg false).2 = SendOutcome.ok none
      ∧ (send [stream] s role msg false).1.ctx = s4.ctx) := by
  have base : send [stream] s role msg false =
      (match processCalls (fun st r m => sendAux [] st r m false) (streamAggregate stream).2
          (requestState s role msg false) with
        | (s3, some o) => (s3, o)
        | (s3, none) =>
          if (streamAggregate stream).1 = "" then
            (s3, SendOutcome.ok (some (streamAggregate stream).1))
          else
            (logAdd { s3 with ctx := s3.ctx ++ [roleMsg "assistant" (streamAggregate stream).1] }
              "AI" (streamAggregate stream).1,
             SendOutcome.ok (some (streamAggregate stream).1))) := rfl
  constructor
  · intro h
    rw [h] at base
    dsimp only at base
    by_cases ht : (streamAggregate stream).1 = ""
    · rw [base, if_pos ht]
      exact ⟨rfl, fun hne => absurd ht hne, fun _ => rfl⟩
    · rw [base, if_neg ht]
      exact ⟨rfl, fun _ => rfl, fun he => absurd he ht⟩
  · intro h
    rw [h] at base
    dsimp only at base
    rw [base]
    exact ⟨rfl, rfl⟩

/-- C5 amended witness: a text-only turn returns and appends `hi`; the
vetoed turn returns `None`. -/
theorem send_text_finalization_witness :
    (send [textStream] s0ping "user" "go" false).2 = SendOutcome.ok (some "hi")
    ∧ (send [textStream] s0ping "user" "go" false).1.ctx =
        (requestState s0ping "user" "go" false).ctx ++ [roleMsg "assistant" "hi"]
    ∧ (send [guardStream] sGuard "user" "go" false).2 = SendOutcome.ok none := by
  have h1 := (send_text_finalization textStream s0ping "user" "go"
    (requestState s0ping "user" "go" false) (requestState s0ping "user" "go" false)).1 rfl
  have h2 := (send_text_finalization guardStream sGuard "user" "go"
    ((send [guardStream] sGuard "user" "go" false).1)
    ((send [guardStream] sGuard "user" "go" false).1)).2 rfl
  exact ⟨h1.1, h1.2.1 (by decide), h2.1⟩

/-- C8 counterexample: a provider whose only attribute is the private
callable `_secret` yields an empty descriptor set, so a call named
`_secret` matches no public operation of any registered provider - yet the
`hasattr` lookup of line 187 matches it, the call is dispatched, two
messages are appended, and no lookup-failure event is logged. -/
theorem private_attr_call_dispatched :
    add_tool_class secretClass = Except.ok []
    ∧ (send [secretStream] sSecret "user" "go" false).1.ctx =
        [roleMsg "user" "go",
         ⟨"tool_call", none, some "c0", some "\x7b\x7d", none⟩,
         ⟨"tool_response", some "\"shh\"", some "c0", none, none⟩]
    ∧ (send [secretStream] sSecret "user" "go" false).1.logs =
        [("request to AI", "user: go"), ("toolcall", "calling tool _secret")] :=
  ⟨rfl, rfl, rfl⟩

/-- C8 amended: a resolved call whose name matches no attribute at all
(`hasattr`) of any registered provider class is dropped: the
lookup-failure event is logged, nothing is appended to the context
(`logAdd` touches only the log sink), and the loop continues with the
remaining calls of the turn. -/
theorem unknown_name_call_dropped
    (nested : ConversationState → String → String → ConversationState × SendOutcome)
    (s : ConversationState) (id : Option String) (i : Nat) (nm args : String)
    (rest : List (Nat × PartialCall))
    (hfind : findToolclass s.toolclasses nm = none) :
    processCalls nested ((i, ⟨id, some nm, args⟩) :: rest) s =
      processCalls nested rest (logAdd s "toolcall" (lookupFailText nm)) := by
  rw [processCalls]
  simp only [hfind]

/-- C8 amended witness: a call naming `nope` against the `ping` provider. -/
theorem unknown_name_call_dropped_witness :
    processCalls nestedNone [(0, ⟨some "cx", some "nope", "\x7b\x7d"⟩)] s0ping =
      processCalls nestedNone [] (logAdd s0ping "toolcall" (lookupFailText "nope")) :=
  unknown_name_call_dropped nestedNone s0ping (some "cx") 0 "nope" "\x7b\x7d" [] rfl

/-- C9 counterexample: a stream in which index 1 first appears before
index 0.  The dispatch loop iterates `final_tool_calls.items()` in dict
insertion order, so `b` (index 1) is consulted and dispatched before `a`
(index 0) - not in ascending index order. -/
theorem dispatch_order_not_ascending :
    (streamAggregate baStream).2.map Prod.fst = [1, 0]
    ∧ (send [baStream] sAb "user" "go" false).1.logs =
        [("request to AI", "user: go"), ("toolcall", "calling tool b"),
         ("toolcall", "calling tool a")]
    ∧ ([1, 0] : List Nat) ≠ [0, 1] :=
  ⟨rfl, rfl, by decide⟩

/-- C9 amended: for every fragment stream, the resolved tool calls are
consulted strictly sequentially in the order in which their indices first
appear in the stream (Python dict insertion order) - which coincides with
ascending index order exactly when the indices happen to first appear in
ascending order, but not in general. -/
theorem calls_in_first_appearance_order (fs : List Fragment) :
    (streamAggregate fs).2.map Prod.fst =
      firstAppearanceOrder (((fs.map Fragment.tool_calls).flatten).map ToolCallDelta.index) := by
  show ((fs.foldl procFragment ("", [])).2).map Prod.fst = _
  rw [calls_foldl_procFragment, keys_foldl_addDelta]
  rfl

/-- C10 counterexample: a call naming the private attribute `_secret` -
which is no registered operation, the emitted descriptor set being empty -
still reaches the loop-guard comparison, because the gate of line 190 is
the `hasattr` scan, not the registered descriptor set: with the stored
pair equal it triggers the veto, injects the corrective message and aborts
the turn. -/
theorem private_attr_triggers_guard :
    add_tool_class secretClass = Except.ok []
    ∧ (send [secretStream] sSecretGuard "user" "go" false).2 = SendOutcome.ok none
    ∧ (send [secretStream] sSecretGuard "user" "go" false).1.ctx =
        [roleMsg "user" "go", roleMsg "system" (loopMsgJson "_secret")]
    ∧ (send [secretStream] sSecretGuard "user" "go" false).1.logs =
        [("request to AI", "user: go"),
         ("toolcall", "AI tried calling the same tool again"),
         ("request to AI", "system: " ++ loopMsgJson "_secret")] :=
  ⟨rfl, rfl, rfl, rfl⟩

/-- C10 amended: the loop-guard comparison is gated by the `hasattr`
provider scan, not by the registered descriptor set: a resolved call whose
name matches no attribute of any registered class is dropped as a lookup
failure without consulting the loop guard, even when its (name, argument
string) pair equals the stored pair - no veto, no corrective message (the
context is untouched), the stored pair stays, and the remaining calls are
still processed. -/
theorem guard_not_consulted_without_attr
    (nested : ConversationState → String → String → ConversationState × SendOutcome)
    (s : ConversationState) (id : Option String) (i : Nat) (nm args : String)
    (rest : List (Nat × PartialCall))
    (hfind : findToolclass s.toolclasses nm = none)
    (hl1 : s.last_tool_call = some nm)
    (hl2 : s.last_tool_call_args = some args) :
    processCalls nested ((i, ⟨id, some nm, args⟩) :: rest) s =
      processCalls nested rest (logAdd s "toolcall" (lookupFailText nm))
    ∧ (logAdd s "toolcall" (lookupFailText nm)).last_tool_call = some nm
    ∧ (logAdd s "toolcall" (lookupFailText nm)).last_tool_call_args = some args
    ∧ (logAdd s "toolcall" (lookupFailText nm)).ctx = s.ctx := by
  refine ⟨?_, hl1, hl2, rfl⟩
  rw [processCalls]
  simp only [hfind]

/-- C10 amended witness: stored pair `(nope, {})` and a call `nope {}`
against a provider set with no such attribute. -/
theorem guard_not_consulted_without_attr_witness :
    processCalls nestedNone [(0, ⟨some "cy", some "nope", "\x7b\x7d"⟩)] sNope =
      processCalls nestedNone [] (logAdd sNope "toolcall" (lookupFailText "nope"))
    ∧ (logAdd sNope "toolcall" (lookupFailText "nope")).last_tool_call = some "nope"
    ∧ (logAdd sNope "toolcall" (lookupFailText "nope")).last_tool_call_args = some "\x7b\x7d"
    ∧ (logAdd sNope "toolcall" (lookupFailText "nope")).ctx = sNope.ctx :=
  guard_not_consulted_without_attr nestedNone sNope (some "cy") 0 "nope" "\x7b\x7d" []
    rfl rfl rfl

end AutoAi
